import Mathlib

/-!
# Verification of the CAL-ACCESS scrape-cache and entity-resolution core

Shallow embedding of `calaccess_processed/management/commands/__init__.py`:

* `ScrapeCommand.get_url` / `get_headers` / `get_html` — the incremental
  scrape cache with its freshness check and fallback-to-cache logic;
* `LoadOCDModelsCommand.get_or_create_post` / `get_or_create_person` —
  the entity-resolution logic for posts and persons.

Python strings are modelled as `String` (lists of characters); the Python
string methods used by the source (`upper`, `title`, `replace`, `split`,
`strip`, `join`, `int(...)`) are embedded below with ASCII semantics, which
coincide with Python's on the ASCII data this program handles.  The Django
ORM is modelled by explicit in-memory stores with `get`/`get_or_create`
semantics (zero matches, exactly one match, several matches).  Python
exceptions are values of the `PyErr` type and fallible code returns
`Except PyErr`.
-/

/-! ## Python character and string primitives (ASCII semantics) -/

/-- `Char.ofNat` at a valid code point recovers the code point. -/
theorem toNat_ofNat_valid {n : Nat} (h : n.isValidChar) : (Char.ofNat n).toNat = n := by
  rw [Char.ofNat, dif_pos h]
  rfl

/-- ASCII view of Python's "cased letter" test (`str.title` word boundaries,
`[A-Za-z]`). -/
def isAsciiAlpha (c : Char) : Bool :=
  (65 ≤ c.toNat && c.toNat ≤ 90) || (97 ≤ c.toNat && c.toNat ≤ 122)

/-- ASCII upper-casing of one character, as in Python's `str.upper`. -/
def upChar (c : Char) : Char :=
  if 97 ≤ c.toNat ∧ c.toNat ≤ 122 then Char.ofNat (c.toNat - 32) else c

/-- ASCII lower-casing of one character, as in Python's `str.lower`. -/
def lowChar (c : Char) : Char :=
  if 65 ≤ c.toNat ∧ c.toNat ≤ 90 then Char.ofNat (c.toNat + 32) else c

/-- Python `str.upper()` (ASCII). -/
def pyUpper (s : String) : String := ⟨s.data.map upChar⟩

/-- `str.title()` word-state machine: a cased letter after a non-cased
character is upper-cased, a cased letter after a cased letter is
lower-cased, and everything else passes through. -/
def pyTitleAux : Bool → List Char → List Char
  | _, [] => []
  | prevAlpha, c :: cs =>
    (if isAsciiAlpha c then (if prevAlpha then lowChar c else upChar c) else c)
      :: pyTitleAux (isAsciiAlpha c) cs

/-- Python `str.title()` (ASCII). -/
def pyTitle (s : String) : String := ⟨pyTitleAux false s.data⟩

/-- Python `str.replace('Of', 'of')`: replace every (non-overlapping,
left-to-right) occurrence of the two-character substring `Of` by `of`. -/
def replaceOfAux : List Char → List Char
  | [] => []
  | [c] => [c]
  | 'O' :: 'f' :: rest => 'o' :: 'f' :: replaceOfAux rest
  | c :: rest => c :: replaceOfAux rest

/-- Python `s.replace('Of', 'of')`. -/
def pyReplaceOf (s : String) : String := ⟨replaceOfAux s.data⟩

/-- Python `str.split(sep)` for a one-character separator: split at every
occurrence, keeping empty segments (`''.split(',') == ['']`). -/
def pySplitAux (sep : Char) : List Char → List Char → List (List Char)
  | acc, [] => [acc.reverse]
  | acc, c :: cs =>
    if c = sep then acc.reverse :: pySplitAux sep [] cs
    else pySplitAux sep (c :: acc) cs

/-- Python `s.split(sep)` (one-character separator). -/
def pySplit (sep : Char) (s : String) : List String :=
  (pySplitAux sep [] s.data).map (fun l => ⟨l⟩)

/-- Python whitespace test for `str.strip()` (ASCII whitespace). -/
def isPyWs (c : Char) : Bool := c = ' ' || c = '\t' || c = '\r' || c = '\n'

/-- Python `str.strip()`: drop leading and trailing whitespace. -/
def pyStripWs (s : String) : String :=
  ⟨((s.data.dropWhile isPyWs).reverse.dropWhile isPyWs).reverse⟩

/-- Python `str.strip('/')`: drop leading and trailing `/` characters. -/
def pyStripSlash (s : String) : String :=
  ⟨((s.data.dropWhile (· = '/')).reverse.dropWhile (· = '/')).reverse⟩

/-- Python `sep.join(parts)`. -/
def pyJoin (sep : String) (parts : List String) : String :=
  ⟨List.intercalate sep.data (parts.map (·.data))⟩

/-- Python `int(s)` on an optionally signed digit string; `none` models a
`ValueError`. -/
def pyInt (s : String) : Option Int :=
  let core : List Char → Option Int := fun ds =>
    if ds ≠ [] ∧ ds.all Char.isDigit then
      some (Int.ofNat (ds.foldl (fun a c => a * 10 + (c.toNat - 48)) 0))
    else none
  match (pyStripWs s).data with
  | '-' :: ds => (core ds).map (fun n => -n)
  | '+' :: ds => core ds
  | ds => core ds

/-- Python `str(n)` for a natural number. -/
def pyStr (n : Nat) : String := toString n

/-! ## Character-level case lemmas -/

/-- `Char.toNat` is injective. -/
theorem char_toNat_inj {c d : Char} (h : c.toNat = d.toNat) : c = d := by
  rw [← Char.ofNat_toNat c, h, Char.ofNat_toNat]

theorem upChar_toNat_of_lower {c : Char} (h : 97 ≤ c.toNat ∧ c.toNat ≤ 122) :
    (upChar c).toNat = c.toNat - 32 := by
  rw [upChar, if_pos h]
  exact toNat_ofNat_valid (Or.inl (by omega))

theorem upChar_eq_of_not_lower {c : Char} (h : ¬(97 ≤ c.toNat ∧ c.toNat ≤ 122)) :
    upChar c = c := by
  rw [upChar, if_neg h]

/-- Two characters with the same upper-casing agree on casedness and on
lower-casing. -/
theorem case_agree {c d : Char} (h : upChar c = upChar d) :
    isAsciiAlpha c = isAsciiAlpha d ∧ lowChar c = lowChar d := by
  by_cases hc : 97 ≤ c.toNat ∧ c.toNat ≤ 122 <;>
    by_cases hd : 97 ≤ d.toNat ∧ d.toNat ≤ 122
  · have h1 := upChar_toNat_of_lower hc
    have h2 := upChar_toNat_of_lower hd
    rw [h] at h1
    rw [h2] at h1
    have : c.toNat = d.toNat := by omega
    rw [char_toNat_inj this]
    exact ⟨rfl, rfl⟩
  · -- c is a lower-case letter, d is not: d = upChar c, an upper-case letter
    rw [upChar_eq_of_not_lower hd] at h
    have h1 : d.toNat = c.toNat - 32 := by
      rw [← h]; exact upChar_toNat_of_lower hc
    constructor
    · have hac : isAsciiAlpha c = true := by
        simp only [isAsciiAlpha, Bool.or_eq_true, Bool.and_eq_true, decide_eq_true_eq]
        omega
      have had : isAsciiAlpha d = true := by
        simp only [isAsciiAlpha, Bool.or_eq_true, Bool.and_eq_true, decide_eq_true_eq]
        omega
      rw [hac, had]
    · have hlc : lowChar c = c := by
        rw [lowChar, if_neg (by omega)]
      have hld : lowChar d = Char.ofNat (d.toNat + 32) := by
        rw [lowChar, if_pos (by omega)]
      rw [hlc, hld, h1]
      have : c.toNat - 32 + 32 = c.toNat := by omega
      rw [this, Char.ofNat_toNat]
  · -- symmetric case
    rw [upChar_eq_of_not_lower hc] at h
    have h1 : c.toNat = d.toNat - 32 := by
      rw [h]; exact upChar_toNat_of_lower hd
    constructor
    · have hac : isAsciiAlpha c = true := by
        simp only [isAsciiAlpha, Bool.or_eq_true, Bool.and_eq_true, decide_eq_true_eq]
        omega
      have had : isAsciiAlpha d = true := by
        simp only [isAsciiAlpha, Bool.or_eq_true, Bool.and_eq_true, decide_eq_true_eq]
        omega
      rw [hac, had]
    · have hld : lowChar d = d := by
        rw [lowChar, if_neg (by omega)]
      have hlc : lowChar c = Char.ofNat (c.toNat + 32) := by
        rw [lowChar, if_pos (by omega)]
      rw [hld, hlc, h1]
      have : d.toNat - 32 + 32 = d.toNat := by omega
      rw [this, Char.ofNat_toNat]
  · rw [upChar_eq_of_not_lower hc, upChar_eq_of_not_lower hd] at h
    rw [h]
    exact ⟨rfl, rfl⟩

/-- Characters with the same upper-casing are sent to the same character by
the title-case state machine, in every state. -/
theorem pyTitleAux_congr :
    ∀ (l₁ l₂ : List Char) (b : Bool), l₁.map upChar = l₂.map upChar →
      pyTitleAux b l₁ = pyTitleAux b l₂ := by
  intro l₁
  induction l₁ with
  | nil =>
    intro l₂ b h
    cases l₂ with
    | nil => rfl
    | cons c cs => simp at h
  | cons c cs ih =>
    intro l₂ b h
    cases l₂ with
    | nil => simp at h
    | cons d ds =>
      simp only [List.map_cons, List.cons.injEq] at h
      obtain ⟨hcd, hcs⟩ := h
      obtain ⟨halpha, hlow⟩ := case_agree hcd
      by_cases ha : isAsciiAlpha d = true
      · simp [pyTitleAux, halpha, hlow, hcd, ha, ih ds true hcs]
      · have ha' : isAsciiAlpha d = false := by
          cases hb : isAsciiAlpha d
          · rfl
          · exact absurd hb ha
        have hc' : upChar c = c := by
          apply upChar_eq_of_not_lower
          have := halpha.trans ha'
          simp only [isAsciiAlpha, Bool.or_eq_false_iff, Bool.and_eq_false_iff,
            decide_eq_false_iff_not, Nat.not_le] at this
          omega
        have hd' : upChar d = d := by
          apply upChar_eq_of_not_lower
          simp only [isAsciiAlpha, Bool.or_eq_false_iff, Bool.and_eq_false_iff,
            decide_eq_false_iff_not, Nat.not_le] at ha'
          omega
        have hcd' : c = d := by
          rw [← hc', ← hd', hcd]
        simp [pyTitleAux, halpha, ha', hcd', ih ds false hcs]

/-- Strings with the same upper-casing have the same title-casing. -/
theorem pyTitle_congr {s t : String} (h : pyUpper s = pyUpper t) :
    pyTitle s = pyTitle t := by
  have hdata : s.data.map upChar = t.data.map upChar := congrArg String.data h
  show String.mk _ = String.mk _
  rw [pyTitleAux_congr s.data t.data false hdata]

/-! ## Scrape cache: `ScrapeCommand.get_url` / `get_headers` / `get_html`

The HTTP layer (the `requests` library) is an external collaborator.  It is
modelled by an oracle `Net` giving, for each request, either a `Response`
or the Python exception the request raises.  `get_url` is wrapped by the
`retry` decorator (from `calaccess_processed.decorators`, not part of the
sources here); modelled from the spec: the wrapper retries a transient
network exception up to a bound and then surfaces the failure, so the
oracle's answer is the outcome *after* the retry bound is exhausted.
-/

/-- The Python exceptions this code raises or handles, as values. -/
inductive PyErr
  /-- `requests.exceptions.HTTPError` (a subclass of `RequestException`). -/
  | httpError
  /-- A transient network failure such as `requests.exceptions.ConnectionError`:
  a `RequestException` that is *not* an `HTTPError`. -/
  | connectionError
  /-- `ValueError` (e.g. `int()` on a malformed string). -/
  | valueError
  /-- `<Model>.DoesNotExist` raised by `objects.get` with no match. -/
  | doesNotExist
  /-- `MultipleObjectsReturned` raised by `objects.get` with several matches. -/
  | multipleObjectsReturned
  /-- `AttributeError` (e.g. `None.groupdict()` after a failed `re.match`). -/
  | attributeError
  /-- `NameError`/`UnboundLocalError`: a local variable referenced before
  assignment. -/
  | nameError
deriving DecidableEq, Repr

/-- Is the exception a `requests.exceptions.RequestException`? -/
def PyErr.isRequestException : PyErr → Bool
  | .httpError => true
  | .connectionError => true
  | _ => false

/-- Is the exception a `requests.exceptions.HTTPError`?  Only these are
caught by the `except` clause in `get_html`. -/
def PyErr.isHTTPError : PyErr → Bool
  | .httpError => true
  | _ => false

/-- HTTP request method, as selected by `request_type` in `get_url`. -/
inductive Method
  | GET
  | HEAD
deriving DecidableEq, Repr

/-- An HTTP response: its body text and its header dictionary. -/
structure Response where
  text : String
  headers : List (String × String)
deriving DecidableEq, Repr

/-- Network oracle: the outcome of one (post-retry) request. -/
abbrev Net : Type := Method → String → Except PyErr Response

/-- `ScrapeCommand.get_url`: issue the request through the (retry-wrapped)
HTTP client and return its outcome. -/
def get_url (net : Net) (request_type : Method) (url : String) : Except PyErr Response :=
  net request_type url

/-- Dictionary lookup in the response headers (`response.headers[key]`);
`none` models a `KeyError`. -/
def headerLookup (headers : List (String × String)) (key : String) : Option String :=
  (headers.find? (fun kv => kv.1 = key)).map (fun kv => kv.2)

/-- `ScrapeCommand.get_headers`: HEAD request, then
`int(response.headers['content-length'])` with the `KeyError` caught
(yielding `None`) and a `ValueError` from `int` propagating. -/
def get_headers (net : Net) (url : String) : Except PyErr (Option Int) :=
  match get_url net Method.HEAD url with
  | .error e => .error e
  | .ok response =>
    match headerLookup response.headers "content-length" with
    | none => .ok none
    | some raw =>
      match pyInt raw with
      | none => .error .valueError
      | some length => .ok (some length)

/-- Python `cache_file_size == web_file_size` where the right-hand side is
`None` or an integer: `int == None` is `False` in Python. -/
def pyEqIntOpt (n : Int) : Option Int → Bool
  | some m => n == m
  | none => false

/-- The reuse condition on line 211 of the source:
`not self.update_cache or cache_file_size == web_file_size`. -/
def reuseCache (update_cache : Bool) (cache_file_size : Int) (web_file_size : Option Int) : Bool :=
  !update_cache || pyEqIntOpt cache_file_size web_file_size

/-- `urljoin(base, url)` (external `urllib` collaborator), modelled as
concatenation: the scraper only joins its fixed base with relative paths,
and the joined URL is only ever passed to the network oracle. -/
def urljoin (base url : String) : String := base ++ url

/-- `url2pathname` (external `urllib` collaborator), modelled as the
identity: the scraper's URL paths are already-decoded ASCII paths. -/
def url2pathname (s : String) : String := s

/-- `BeautifulSoup(html, "html.parser")` (external collaborator): a parsed
document, carrying the HTML text it was parsed from. -/
structure Soup where
  html : String
deriving DecidableEq, Repr

/-- The scraper cache directory: a map from cache path to file content.
`os.path.getsize` is the byte length of the stored content. -/
abbrev Cache : Type := List (String × String)

/-- `os.path.exists(cache_path)` / `open(cache_path).read()`. -/
def cacheRead (cache : Cache) (path : String) : Option String :=
  (cache.find? (fun kv => kv.1 = path)).map (fun kv => kv.2)

/-- `open(cache_path, 'w').write(html)`: overwrite or create the entry. -/
def cacheWrite (cache : Cache) (path : String) (html : String) : Cache :=
  if (cache.find? (fun kv => kv.1 = path)).isSome then
    cache.map (fun kv => if kv.1 = path then (path, html) else kv)
  else
    cache ++ [(path, html)]

/-- The per-command scraper options set by `handle` from the CLI flags. -/
structure ScrapeConfig where
  /-- `--force-download`: bypass the cache read. -/
  force_download : Bool
  /-- `update_cache` (`--cache-only` sets it to `False`): run the freshness
  check against the live page's `content-length`. -/
  update_cache : Bool
deriving DecidableEq, Repr

/-- Outcome of `get_html`: its result (document and updated cache, or the
exception it raises) together with the network requests it issued, in
order. -/
structure GetHtmlOut where
  result : Except PyErr (Soup × Cache)
  requests : List (Method × String)
deriving Repr

/-- Lines 217–240 of the source: the live fetch.  `try` the GET; an
`HTTPError` falls back to the cached file when one exists and is re-raised
otherwise; any other exception propagates.  On success the body is written
to the cache and parsed. -/
def liveFetch (net : Net) (cache : Cache) (full_url cache_path : String) : Except PyErr (Soup × Cache) :=
  match get_url net Method.GET full_url with
  | .error e =>
    if e.isHTTPError then
      match cacheRead cache cache_path with
      | some html => .ok (Soup.mk html, cache)
      | none => .error e
    else
      .error e
  | .ok response =>
    .ok (Soup.mk response.text, cacheWrite cache cache_path response.text)

/-- `ScrapeCommand.get_html`: resolve the full URL and the cache path; if a
cache entry exists and `--force-download` is off, run the freshness check
(HEAD request) when `update_cache` is on and return the cached file when
the check passes (always, when `update_cache` is off — the `or` on
line 211 short-circuits); otherwise fetch the live page with
cache-fallback on `HTTPError`. -/
def get_html (cfg : ScrapeConfig) (net : Net) (cache : Cache) (url : String)
    (base_url : String) : GetHtmlOut :=
  let full_url := urljoin base_url url
  let cache_path := url2pathname (pyStripSlash url)
  match cacheRead cache cache_path, cfg.force_download with
  | some cached, false =>
    if cfg.update_cache then
      let cache_file_size : Int := Int.ofNat cached.length
      match get_headers net full_url with
      | .error e => ⟨.error e, [(Method.HEAD, full_url)]⟩
      | .ok web_file_size =>
        if reuseCache true cache_file_size web_file_size then
          ⟨.ok (Soup.mk cached, cache), [(Method.HEAD, full_url)]⟩
        else
          ⟨liveFetch net cache full_url cache_path,
            [(Method.HEAD, full_url), (Method.GET, full_url)]⟩
    else
      ⟨.ok (Soup.mk cached, cache), []⟩
  | _, _ => ⟨liveFetch net cache full_url cache_path, [(Method.GET, full_url)]⟩

/-! ## Entity resolution: `LoadOCDModelsCommand`

The identity store (Django ORM over the `opencivicdata` models) is
modelled by explicit in-memory stores.  `objects.get` returns its match
when exactly one row satisfies the criteria, raises `DoesNotExist` on no
match and `MultipleObjectsReturned` on several.  Organizations are
identified by the full criteria tuple their `get_or_create` calls use
(name, classification, parent), which makes those calls pure value
construction.
-/

/-- An OCD `Division` row, with the subfields `get_or_create_post` filters
on and its division id. -/
structure DivisionRec where
  did : String
  subid1 : String
  subtype2 : String
  subid2 : String
deriving DecidableEq, Repr

/-- An OCD `Organization`, identified by the criteria of the
`get_or_create` call that produces it. -/
structure Org where
  name : String
  classification : Option String
  parent : Option String
deriving DecidableEq, Repr

/-- `self.executive_branch` as created in `LoadOCDModelsCommand.handle`. -/
def executive_branch : Org :=
  ⟨"California State Executive Branch", some "executive", none⟩

/-- `self.sos` as created in `LoadOCDModelsCommand.handle`. -/
def sos : Org :=
  ⟨"California Secretary of State", some "executive", some "California State Executive Branch"⟩

/-- An OCD `Post` row: the attribute tuple `get_or_create_post` passes to
`Post.objects.get_or_create` (division kept by its id). -/
structure PostRec where
  label : String
  division : String
  organization : Org
  role : String
deriving DecidableEq, Repr

/-- `Division.objects.get(subid1=…, subtype2=…, subid2=…)`. -/
def divisionGet (divisions : List DivisionRec) (s1 t2 s2 : String) :
    Except PyErr DivisionRec :=
  match divisions.filter (fun d => d.subid1 = s1 ∧ d.subtype2 = t2 ∧ d.subid2 = s2) with
  | [] => .error .doesNotExist
  | [d] => .ok d
  | _ => .error .multipleObjectsReturned

/-- `Post.objects.get_or_create(**raw_post)`. -/
def postGetOrCreate (posts : List PostRec) (p : PostRec) :
    Except PyErr (PostRec × Bool × List PostRec) :=
  match posts.filter (fun q => q = p) with
  | [] => .ok (p, true, posts ++ [p])
  | [q] => .ok (q, false, posts)
  | _ => .error .multipleObjectsReturned

/-- `re.match(r'^(?P<type>[A-Z ]+)(?P<district>\d{2})?$', office_name.upper())`:
the (greedy) leading `[A-Z ]` run and the optional two-digit district
group, or `none` when the pattern does not match. -/
def matchOffice (office_name : String) : Option (String × Option String) :=
  let u := (pyUpper office_name).data
  let ty := u.takeWhile (fun c => (65 ≤ c.toNat && c.toNat ≤ 90) || c = ' ')
  let rest := u.dropWhile (fun c => (65 ≤ c.toNat && c.toNat ≤ 90) || c = ' ')
  if ty = [] then none
  else if rest = [] then some (⟨ty⟩, none)
  else if rest.length = 2 ∧ rest.all Char.isDigit then some (⟨ty⟩, some ⟨rest⟩)
  else none

/-- `int` of the two-digit district group. -/
def districtToNat (d : String) : Nat :=
  d.data.foldl (fun a c => a * 10 + (c.toNat - 48)) 0

/-- Lines 329–377 of the source: parse the office name and build the
`raw_post` attribute dictionary.  A pattern mismatch makes
`match.groupdict()` raise `AttributeError` (`match` is `None`).  A missing
district group leaves `district_num` unassigned (the `int(None)`
`TypeError` is swallowed), so the Senate/Assembly branches raise a
`NameError` when they evaluate `str(district_num)`. -/
def build_raw_post (divisions : List DivisionRec) (state_division : DivisionRec)
    (office_name : String) : Except PyErr PostRec :=
  match matchOffice office_name with
  | none => .error .attributeError
  | some (ty, district) =>
    let office_type := pyStripWs ty
    let district_num : Option Nat := district.map districtToNat
    let label := pyReplaceOf (pyTitle office_name)
    if office_type = "STATE SENATE" then
      match district_num with
      | none => .error .nameError
      | some n =>
        match divisionGet divisions "ca" "sldu" (pyStr n) with
        | .error e => .error e
        | .ok d => .ok ⟨label, d.did, ⟨"California State Senate", some "upper", none⟩, "Senator"⟩
    else if office_type = "ASSEMBLY" then
      match district_num with
      | none => .error .nameError
      | some n =>
        match divisionGet divisions "ca" "sldl" (pyStr n) with
        | .error e => .error e
        | .ok d => .ok ⟨label, d.did, ⟨"California State Assembly", some "lower", none⟩, "Assembly Member"⟩
    else if office_type = "MEMBER BOARD OF EQUALIZATION" then
      .ok ⟨label, state_division.did,
        ⟨"State Board of Equalization", none, some executive_branch.name⟩, "Board Member"⟩
    else if office_type = "SECRETARY OF STATE" then
      .ok ⟨label, state_division.did, sos, label⟩
    else
      .ok ⟨label, state_division.did, executive_branch, label⟩

/-- `LoadOCDModelsCommand.get_or_create_post`: build `raw_post`, then
`return Post.objects.get_or_create(**raw_post)` (line 379). -/
def get_or_create_post (divisions : List DivisionRec) (state_division : DivisionRec)
    (posts : List PostRec) (office_name : String) :
    Except PyErr (PostRec × Bool × List PostRec) :=
  match build_raw_post divisions state_division office_name with
  | .error e => .error e
  | .ok raw_post => postGetOrCreate posts raw_post

/-- An OCD `Person` row: primary key, the two name fields, and its
`(scheme, identifier)` pairs. -/
structure PersonRec where
  pid : Nat
  sort_name : String
  name : String
  identifiers : List (String × String)
deriving DecidableEq, Repr

/-- The `Person` table with a fresh-primary-key counter. -/
structure PersonDB where
  nextId : Nat
  rows : List PersonRec
deriving DecidableEq, Repr

/-- The rows matching
`identifiers__scheme=scheme, identifiers__identifier=identifier`. -/
def personsWithIdentifier (db : PersonDB) (scheme identifier : String) : List PersonRec :=
  db.rows.filter (fun p => (scheme, identifier) ∈ p.identifiers)

/-- `Person.objects.get_or_create(sort_name=…, name=…)`. -/
def personGetOrCreate (db : PersonDB) (sort_name name : String) :
    Except PyErr (PersonRec × Bool × PersonDB) :=
  match db.rows.filter (fun p => p.sort_name = sort_name ∧ p.name = name) with
  | [] =>
    let p : PersonRec := ⟨db.nextId, sort_name, name, []⟩
    .ok (p, true, ⟨db.nextId + 1, db.rows ++ [p]⟩)
  | [p] => .ok (p, false, db)
  | _ => .error .multipleObjectsReturned

/-- `person.identifiers.create(scheme=…, identifier=…)`: append the pair to
that person's identifier set (in the store and on the in-hand object). -/
def addIdentifier (db : PersonDB) (pid : Nat) (scheme identifier : String) : PersonDB :=
  ⟨db.nextId,
    db.rows.map (fun p =>
      if p.pid = pid then { p with identifiers := p.identifiers ++ [(scheme, identifier)] }
      else p)⟩

/-- `LoadOCDModelsCommand.get_or_create_person`.  With a `filer_id`, first
look up a person already linked to `(calaccess_filer_id, filer_id)`
(`DoesNotExist` is caught and falls through; `MultipleObjectsReturned`
propagates).  Otherwise split the name on commas, reverse, join with
spaces and strip; get-or-create on `(sort_name, name)`; attach the filer
id when one was supplied; and report `created = True` on this whole path. -/
def get_or_create_person (db : PersonDB) (name : String) (filer_id : Option String) :
    Except PyErr (PersonRec × Bool × PersonDB) :=
  let found : Except PyErr (Option PersonRec) :=
    match filer_id with
    | none => .ok none
    | some fid =>
      match personsWithIdentifier db "calaccess_filer_id" fid with
      | [] => .ok none
      | [p] => .ok (some p)
      | _ => .error .multipleObjectsReturned
  match found with
  | .error e => .error e
  | .ok (some p) => .ok (p, false, db)
  | .ok none =>
    let split_name := pySplit ',' name
    let reversed := split_name.reverse
    match personGetOrCreate db name (pyStripWs (pyJoin " " reversed)) with
    | .error e => .error e
    | .ok (p, _, db1) =>
      match filer_id with
      | some fid =>
        .ok ({ p with identifiers := p.identifiers ++ [("calaccess_filer_id", fid)] },
          true, addIdentifier db1 p.pid "calaccess_filer_id" fid)
      | none => .ok (p, true, db1)

/-! ## Fixtures used by witnesses and counterexamples -/

/-- A network where every request raises a transient network error
(`ConnectionError`), even after the retry bound. -/
def netDown : Net := fun _ _ => .error .connectionError

/-- A network where the GET raises an `HTTPError` and the HEAD succeeds. -/
def netHttp : Net := fun m _ =>
  match m with
  | .GET => .error .httpError
  | .HEAD => .ok ⟨"", []⟩

/-- A network where every request succeeds with body `"fresh"` and no
`content-length` header. -/
def netOk : Net := fun _ _ => .ok ⟨"fresh", []⟩

/-- A cache holding `"old"` for the resource path `u`. -/
def cacheU : Cache := [("u", "old")]

/-- The California state division. -/
def divCA : DivisionRec := ⟨"ocd-division/country:us/state:ca", "ca", "", ""⟩

/-! ## Claims -/

/-- **C1** — the claim: with a cache entry present and every network request
raising a transient network error (even after the retry bound), `get_html`
does not raise but returns the cached content.  The code violates this:
the `except` clause on line 220 catches only
`requests.exceptions.HTTPError`, so a `ConnectionError` propagates even
though a cache entry exists — both on the freshness HEAD request (default
flags) and on the live GET (`--force-download`).  This theorem evaluates
the code at the failing input. -/
theorem c1_network_error_not_recovered :
    cacheRead cacheU (url2pathname (pyStripSlash "u")) = some "old"
    ∧ (get_html ⟨false, true⟩ netDown cacheU "u" "http://base/").result
        = .error PyErr.connectionError
    ∧ (get_html ⟨true, true⟩ netDown cacheU "u" "http://base/").result
        = .error PyErr.connectionError
    ∧ PyErr.connectionError.isRequestException = true
    ∧ PyErr.connectionError.isHTTPError = false :=
  ⟨rfl, rfl, rfl, rfl, rfl⟩

/-- **C2** — if the live fetch raises an HTTP-level failure
(`HTTPError`), `get_html` returns the parsed cached content when a cache
entry exists and propagates the same error when none exists. -/
theorem c2_http_failure_fallback (cfg : ScrapeConfig) (net : Net) (cache : Cache)
    (url base_url : String)
    (h : net Method.GET (urljoin base_url url) = .error PyErr.httpError) :
    (∀ c, cacheRead cache (url2pathname (pyStripSlash url)) = some c →
      (get_html ⟨true, cfg.update_cache⟩ net cache url base_url).result
        = .ok (Soup.mk c, cache))
    ∧ (cacheRead cache (url2pathname (pyStripSlash url)) = none →
      (get_html cfg net cache url base_url).result = .error PyErr.httpError) := by
  constructor
  · intro c hc
    simp [get_html, hc, liveFetch, get_url, h, PyErr.isHTTPError]
  · intro hc
    obtain ⟨fd, uc⟩ := cfg
    cases fd <;>
      simp [get_html, hc, liveFetch, get_url, h, PyErr.isHTTPError]

/-- Witness for C2 at a concrete network, cache and URL. -/
theorem c2_witness :
    netHttp Method.GET (urljoin "http://base/" "u") = .error PyErr.httpError
    ∧ (get_html ⟨true, true⟩ netHttp cacheU "u" "http://base/").result
        = .ok (Soup.mk "old", cacheU)
    ∧ (get_html ⟨false, true⟩ netHttp ([] : Cache) "u" "http://base/").result
        = .error PyErr.httpError :=
  ⟨rfl,
    (c2_http_failure_fallback ⟨true, true⟩ netHttp cacheU "u" "http://base/" rfl).1 "old" rfl,
    (c2_http_failure_fallback ⟨false, true⟩ netHttp [] "u" "http://base/" rfl).2 rfl⟩

/-- **C4** — with `--cache-only` (`update_cache = false`) and
`--force-download` off: an existing cache entry is returned with no
network request at all (in particular no HEAD); a missing cache entry
still goes to the live fetch (exactly one GET), which on success returns
and caches the live body. -/
theorem c4_cache_only_semantics (net : Net) (cache : Cache) (url base_url : String) :
    (∀ c, cacheRead cache (url2pathname (pyStripSlash url)) = some c →
      get_html ⟨false, false⟩ net cache url base_url = ⟨.ok (Soup.mk c, cache), []⟩)
    ∧ (cacheRead cache (url2pathname (pyStripSlash url)) = none →
      (get_html ⟨false, false⟩ net cache url base_url).requests
          = [(Method.GET, urljoin base_url url)]
      ∧ ∀ r, net Method.GET (urljoin base_url url) = .ok r →
          (get_html ⟨false, false⟩ net cache url base_url).result
            = .ok (Soup.mk r.text,
                cacheWrite cache (url2pathname (pyStripSlash url)) r.text)) := by
  constructor
  · intro c hc
    simp only [get_html, hc]
    rfl
  · intro hc
    constructor
    · simp only [get_html, hc]
    · intro r hr
      simp only [get_html, hc, liveFetch, get_url, hr]

/-- Witness for C4: cached entry returned with zero requests under a dead
network; missing entry still live-fetched and cached. -/
theorem c4_witness :
    get_html ⟨false, false⟩ netDown cacheU "u" "http://base/"
      = ⟨.ok (Soup.mk "old", cacheU), []⟩
    ∧ (get_html ⟨false, false⟩ netOk ([] : Cache) "u" "http://base/").result
        = .ok (Soup.mk "fresh", [("u", "fresh")]) :=
  ⟨(c4_cache_only_semantics netDown cacheU "u" "http://base/").1 "old" rfl,
    ((c4_cache_only_semantics netOk [] "u" "http://base/").2 rfl).2 ⟨"fresh", []⟩ rfl⟩

/-- **C7** — an office label that does not match
`^[A-Z ]+(\d{2})?$` (after upper-casing) makes `get_or_create_post` raise
(`None.groupdict()` → `AttributeError`); no recovery or skip. -/
theorem c7_unparseable_office_fatal (divisions : List DivisionRec)
    (state_division : DivisionRec) (posts : List PostRec) (office_name : String)
    (h : matchOffice office_name = none) :
    get_or_create_post divisions state_division posts office_name
      = .error PyErr.attributeError := by
  simp only [get_or_create_post, build_raw_post, h]

/-- Witness for C7 at the claim's concrete input `"123"`. -/
theorem c7_witness :
    get_or_create_post [] divCA [] "123" = .error PyErr.attributeError :=
  c7_unparseable_office_fatal [] divCA [] "123" rfl

/-- **C10** — an office string whose type parses to `STATE SENATE` or
`ASSEMBLY` but with no trailing two-digit district leaves `district_num`
unassigned, so `get_or_create_post` raises (`str(district_num)` →
`NameError`) instead of returning a Post. -/
theorem c10_missing_district_fatal (divisions : List DivisionRec)
    (state_division : DivisionRec) (posts : List PostRec) (office_name ty : String)
    (h : matchOffice office_name = some (ty, none))
    (hty : pyStripWs ty = "STATE SENATE" ∨ pyStripWs ty = "ASSEMBLY") :
    get_or_create_post divisions state_division posts office_name
      = .error PyErr.nameError := by
  cases hty with
  | inl h1 => simp [get_or_create_post, build_raw_post, h, h1]
  | inr h1 => simp [get_or_create_post, build_raw_post, h, h1]

/-- Witness for C10 at `"STATE SENATE"` and `"ASSEMBLY"`. -/
theorem c10_witness :
    get_or_create_post [] divCA [] "STATE SENATE" = .error PyErr.nameError
    ∧ get_or_create_post [] divCA [] "ASSEMBLY" = .error PyErr.nameError :=
  ⟨c10_missing_district_fatal [] divCA [] "STATE SENATE" "STATE SENATE" rfl (Or.inl rfl),
    c10_missing_district_fatal [] divCA [] "ASSEMBLY" "ASSEMBLY" rfl (Or.inr rfl)⟩

/-- A network whose HEAD response carries `content-length: 3`. -/
def netCL : Net := fun _ _ => .ok ⟨"xyz", [("content-length", "3")]⟩

/-- **C3** — with update checks enabled, the freshness decision reuses the
cache (only the HEAD request is issued and the cached document returned)
iff the remote `content-length`, parsed as an integer, is present and
exactly equal to the cached size; `None` (absent header) never compares
equal to an integer, forcing a refetch. -/
theorem c3_freshness_equality (net : Net) (cache : Cache) (url base_url c : String)
    (w : Option Int)
    (hc : cacheRead cache (url2pathname (pyStripSlash url)) = some c)
    (hw : get_headers net (urljoin base_url url) = .ok w) :
    ((get_html ⟨false, true⟩ net cache url base_url).requests
        = [(Method.HEAD, urljoin base_url url)] ↔ w = some (Int.ofNat c.length))
    ∧ (w = some (Int.ofNat c.length) →
        (get_html ⟨false, true⟩ net cache url base_url).result = .ok (Soup.mk c, cache))
    ∧ (∀ S : Int, reuseCache true S none = false)
    ∧ (∀ (S : Int) (wf : Option Int), reuseCache true S wf = true ↔ wf = some S)
    ∧ (∀ (net' : Net) (url' : String) (r : Response),
        net' Method.HEAD url' = .ok r →
        headerLookup r.headers "content-length" = none →
        get_headers net' url' = .ok none) := by
  have hreuse : ∀ (S : Int) (wf : Option Int), reuseCache true S wf = true ↔ wf = some S := by
    intro S wf
    cases wf with
    | none => simp [reuseCache, pyEqIntOpt]
    | some m =>
      simp only [reuseCache, pyEqIntOpt, Bool.not_true, Bool.false_or, beq_iff_eq,
        Option.some.injEq]
      exact ⟨fun h1 => h1.symm, fun h1 => h1.symm⟩
  refine ⟨?_, ?_, ?_, hreuse, ?_⟩
  · by_cases hr : reuseCache true (Int.ofNat c.length) w = true
    · simp only [get_html, hc, hw, hr, if_true]
      simp only [true_iff]
      exact (hreuse _ _).mp hr
    · have hr' : reuseCache true (Int.ofNat c.length) w = false := by
        cases hb : reuseCache true (Int.ofNat c.length) w
        · rfl
        · exact absurd hb hr
      constructor
      · intro hreq
        have hreq2 : (get_html ⟨false, true⟩ net cache url base_url).requests
            = [(Method.HEAD, urljoin base_url url), (Method.GET, urljoin base_url url)] := by
          simp only [get_html, hc, hw, hr']
          rfl
        rw [hreq2] at hreq
        exact absurd hreq (by simp)
      · intro hww
        exact absurd ((hreuse _ _).mpr hww) hr
  · intro hww
    have hr := (hreuse (Int.ofNat c.length) w).mpr hww
    simp only [get_html, hc, hw, hr, if_true]
  · intro S
    simp [reuseCache, pyEqIntOpt]
  · intro net' url' r hr hno
    simp [get_headers, get_url, hr, hno]

/-- Witness for C3: cached size 3 and remote `content-length: 3` reuse the
cache with only a HEAD issued. -/
theorem c3_witness :
    cacheRead cacheU (url2pathname (pyStripSlash "u")) = some "old"
    ∧ get_headers netCL (urljoin "http://base/" "u") = .ok (some 3)
    ∧ ((get_html ⟨false, true⟩ netCL cacheU "u" "http://base/").requests
        = [(Method.HEAD, urljoin "http://base/" "u")]
      ↔ (some 3 : Option Int) = some (Int.ofNat ("old" : String).length))
    ∧ (get_html ⟨false, true⟩ netCL cacheU "u" "http://base/").result
        = .ok (Soup.mk "old", cacheU) :=
  ⟨rfl, rfl,
    (c3_freshness_equality netCL cacheU "u" "http://base/" "old" (some 3) rfl rfl).1,
    (c3_freshness_equality netCL cacheU "u" "http://base/" "old" (some 3) rfl rfl).2.1 rfl⟩

/-- **C8** — resolving a person with no filer id stores `sort_name` equal to
the raw input and `name` equal to the comma-split segments reversed,
joined with spaces and stripped of surrounding whitespace; the resulting
person is in the store. -/
theorem c8_name_normalization (db : PersonDB) (name : String) (p : PersonRec)
    (c : Bool) (db1 : PersonDB)
    (h : get_or_create_person db name none = .ok (p, c, db1)) :
    p.sort_name = name
    ∧ p.name = pyStripWs (pyJoin " " ((pySplit ',' name).reverse))
    ∧ p ∈ db1.rows := by
  simp only [get_or_create_person] at h
  cases hpg : personGetOrCreate db name (pyStripWs (pyJoin " " ((pySplit ',' name).reverse))) with
  | error e =>
    rw [hpg] at h
    exact Except.noConfusion h
  | ok trip =>
    obtain ⟨p0, b0, db2⟩ := trip
    rw [hpg] at h
    simp only [Except.ok.injEq, Prod.mk.injEq] at h
    obtain ⟨hp, hc2, hdb⟩ := h
    subst hp
    subst hdb
    simp only [personGetOrCreate] at hpg
    cases hf : db.rows.filter
        (fun q => q.sort_name = name
          ∧ q.name = pyStripWs (pyJoin " " ((pySplit ',' name).reverse))) with
    | nil =>
      rw [hf] at hpg
      simp only [Except.ok.injEq, Prod.mk.injEq] at hpg
      obtain ⟨hp0, hb0, hdb2⟩ := hpg
      rw [← hp0, ← hdb2]
      refine ⟨rfl, rfl, ?_⟩
      exact List.mem_append_right _ (List.mem_singleton_self _)
    | cons q qs =>
      cases qs with
      | nil =>
        rw [hf] at hpg
        simp only [Except.ok.injEq, Prod.mk.injEq] at hpg
        obtain ⟨hp0, hb0, hdb2⟩ := hpg
        have hqmem : q ∈ db.rows.filter
            (fun q => q.sort_name = name
              ∧ q.name = pyStripWs (pyJoin " " ((pySplit ',' name).reverse))) := by
          rw [hf]
          exact List.mem_singleton_self q
        obtain ⟨hmem, hpred⟩ := List.mem_filter.mp hqmem
        have hpred' := of_decide_eq_true hpred
        rw [← hp0, ← hdb2]
        exact ⟨hpred'.1, hpred'.2, hmem⟩
      | cons q' qs' =>
        rw [hf] at hpg
        exact Except.noConfusion hpg

/-- Witness for C8 at the claim's concrete input `"SMITH, JOHN"`. -/
theorem c8_witness :
    (⟨0, "SMITH, JOHN", "JOHN SMITH", []⟩ : PersonRec).sort_name = "SMITH, JOHN"
    ∧ (⟨0, "SMITH, JOHN", "JOHN SMITH", []⟩ : PersonRec).name
        = pyStripWs (pyJoin " " ((pySplit ',' "SMITH, JOHN").reverse))
    ∧ (⟨0, "SMITH, JOHN", "JOHN SMITH", []⟩ : PersonRec)
        ∈ (⟨1, [⟨0, "SMITH, JOHN", "JOHN SMITH", []⟩]⟩ : PersonDB).rows :=
  c8_name_normalization ⟨0, []⟩ "SMITH, JOHN"
    ⟨0, "SMITH, JOHN", "JOHN SMITH", []⟩ true
    ⟨1, [⟨0, "SMITH, JOHN", "JOHN SMITH", []⟩]⟩ rfl

/-! ## Helper lemmas on `postGetOrCreate` and `build_raw_post` -/

/-- A `Post` returned by `postGetOrCreate` equals the requested attribute
tuple. -/
theorem postGetOrCreate_ok_val {posts posts1 : List PostRec} {k p : PostRec} {c : Bool}
    (h : postGetOrCreate posts k = .ok (p, c, posts1)) : p = k := by
  unfold postGetOrCreate at h
  cases hf : posts.filter (fun q => q = k) with
  | nil =>
    rw [hf] at h
    simp only [Except.ok.injEq, Prod.mk.injEq] at h
    exact h.1.symm
  | cons q qs =>
    cases qs with
    | nil =>
      rw [hf] at h
      simp only [Except.ok.injEq, Prod.mk.injEq] at h
      have hqmem : q ∈ posts.filter (fun q => q = k) := by
        rw [hf]
        exact List.mem_singleton_self q
      have hq := of_decide_eq_true (List.mem_filter.mp hqmem).2
      rw [← h.1, hq]
    | cons q' qs' =>
      rw [hf] at h
      exact Except.noConfusion h

/-- `Post.objects.get_or_create` is idempotent: a second call with the same
attribute tuple against the updated store returns the same post, not
created. -/
theorem postGetOrCreate_idem {posts posts1 : List PostRec} {k p : PostRec} {c : Bool}
    (h : postGetOrCreate posts k = .ok (p, c, posts1)) :
    postGetOrCreate posts1 k = .ok (p, false, posts1) := by
  have hp := postGetOrCreate_ok_val h
  subst hp
  unfold postGetOrCreate at *
  cases hf : posts.filter (fun q => q = p) with
  | nil =>
    rw [hf] at h
    simp only [Except.ok.injEq, Prod.mk.injEq] at h
    rw [← h.2.2, List.filter_append, hf]
    simp
  | cons q qs =>
    cases qs with
    | nil =>
      rw [hf] at h
      simp only [Except.ok.injEq, Prod.mk.injEq] at h
      obtain ⟨h1, h2, h3⟩ := h
      rw [← h3, hf, h1]
    | cons q' qs' =>
      rw [hf] at h
      exact Except.noConfusion h

/-- Every successfully built `raw_post` carries the label
`office_name.title().replace('Of', 'of')`. -/
theorem build_raw_post_label {divisions : List DivisionRec} {sd : DivisionRec}
    {office_name : String} {raw : PostRec}
    (h : build_raw_post divisions sd office_name = .ok raw) :
    raw.label = pyReplaceOf (pyTitle office_name) := by
  cases hm : matchOffice office_name with
  | none =>
    simp only [build_raw_post, hm] at h
    exact Except.noConfusion h
  | some pr =>
    obtain ⟨ty, district⟩ := pr
    simp only [build_raw_post, hm] at h
    split at h
    · split at h
      · exact Except.noConfusion h
      · split at h
        · exact Except.noConfusion h
        · injection h with h2
          subst h2
          rfl
    · split at h
      · split at h
        · exact Except.noConfusion h
        · split at h
          · exact Except.noConfusion h
          · injection h with h2
            subst h2
            rfl
      · split at h
        · injection h with h2
          subst h2
          rfl
        · split at h
          · injection h with h2
            subst h2
            rfl
          · injection h with h2
            subst h2
            rfl

/-- The senate district 12 division. -/
def divS12 : DivisionRec := ⟨"ocd-division/country:us/state:ca/sldu:12", "ca", "sldu", "12"⟩

/-- **C6** — `get_or_create_post` is deterministic and case-insensitive:
office strings with the same upper-casing resolve identically (in
particular `"ASSEMBLY03"` and `"assembly03"`); resolving the same string
again returns the same Post with `created = false`; `"STATE SENATE12"`
yields role `Senator` and organization `California State Senate`; and
`"SECRETARY OF STATE"` yields the Secretary of State organization
singleton. -/
theorem c6_post_determinism :
    (∀ (s t : String) (divisions : List DivisionRec) (sd : DivisionRec)
        (posts : List PostRec),
      pyUpper s = pyUpper t →
      get_or_create_post divisions sd posts s = get_or_create_post divisions sd posts t)
    ∧ (∀ (divisions : List DivisionRec) (sd : DivisionRec) (posts : List PostRec)
        (s : String) (p : PostRec) (c : Bool) (posts1 : List PostRec),
      get_or_create_post divisions sd posts s = .ok (p, c, posts1) →
      get_or_create_post divisions sd posts1 s = .ok (p, false, posts1))
    ∧ (∀ (divisions : List DivisionRec) (sd : DivisionRec) (posts : List PostRec),
      get_or_create_post divisions sd posts "ASSEMBLY03"
        = get_or_create_post divisions sd posts "assembly03")
    ∧ (∀ (divisions : List DivisionRec) (sd : DivisionRec) (d : DivisionRec),
      divisionGet divisions "ca" "sldu" "12" = .ok d →
      get_or_create_post divisions sd [] "STATE SENATE12"
        = .ok (⟨"State Senate12", d.did,
              ⟨"California State Senate", some "upper", none⟩, "Senator"⟩, true,
            [⟨"State Senate12", d.did,
              ⟨"California State Senate", some "upper", none⟩, "Senator"⟩]))
    ∧ (∀ (divisions : List DivisionRec) (sd : DivisionRec),
      get_or_create_post divisions sd [] "SECRETARY OF STATE"
        = .ok (⟨"Secretary of State", sd.did, sos, "Secretary of State"⟩, true,
            [⟨"Secretary of State", sd.did, sos, "Secretary of State"⟩])) := by
  have hcongr : ∀ (s t : String) (divisions : List DivisionRec) (sd : DivisionRec)
      (posts : List PostRec),
      pyUpper s = pyUpper t →
      get_or_create_post divisions sd posts s = get_or_create_post divisions sd posts t := by
    intro s t divisions sd posts h
    have hm : matchOffice s = matchOffice t := by
      simp only [matchOffice, h]
    have hl : pyTitle s = pyTitle t := pyTitle_congr h
    simp only [get_or_create_post, build_raw_post, hm, hl]
  refine ⟨hcongr, ?_, ?_, ?_, ?_⟩
  · intro divisions sd posts s p c posts1 h
    unfold get_or_create_post at *
    cases hb : build_raw_post divisions sd s with
    | error e =>
      rw [hb] at h
      exact Except.noConfusion h
    | ok raw =>
      rw [hb] at h
      exact postGetOrCreate_idem h
  · intro divisions sd posts
    exact hcongr "ASSEMBLY03" "assembly03" divisions sd posts rfl
  · intro divisions sd d hd
    have hb : build_raw_post divisions sd "STATE SENATE12"
        = match divisionGet divisions "ca" "sldu" "12" with
          | .error e => .error e
          | .ok d0 => .ok ⟨"State Senate12", d0.did,
              ⟨"California State Senate", some "upper", none⟩, "Senator"⟩ := rfl
    unfold get_or_create_post
    rw [hb, hd]
    rfl
  · intro divisions sd
    rfl

/-- Witness for C6: senate district lookup discharged at a concrete
division store; case-insensitive pair and idempotence at concrete
inputs. -/
theorem c6_witness :
    get_or_create_post [divS12] divCA [] "STATE SENATE12"
      = .ok (⟨"State Senate12", divS12.did,
            ⟨"California State Senate", some "upper", none⟩, "Senator"⟩, true,
          [⟨"State Senate12", divS12.did,
            ⟨"California State Senate", some "upper", none⟩, "Senator"⟩])
    ∧ get_or_create_post [divS12] divCA [] "ASSEMBLY03"
        = get_or_create_post [divS12] divCA [] "assembly03"
    ∧ get_or_create_post [] divCA
          [⟨"Secretary of State", divCA.did, sos, "Secretary of State"⟩] "SECRETARY OF STATE"
        = .ok (⟨"Secretary of State", divCA.did, sos, "Secretary of State"⟩, false,
            [⟨"Secretary of State", divCA.did, sos, "Secretary of State"⟩]) :=
  ⟨c6_post_determinism.2.2.2.1 [divS12] divCA divS12 rfl,
    c6_post_determinism.2.2.1 [divS12] divCA [],
    c6_post_determinism.2.1 [] divCA [] "SECRETARY OF STATE"
      ⟨"Secretary of State", divCA.did, sos, "Secretary of State"⟩ true
      [⟨"Secretary of State", divCA.did, sos, "Secretary of State"⟩]
      (c6_post_determinism.2.2.2.2 [] divCA)⟩

/-- Modelled from the spec: "Title-case the label for display, correcting
the word "Of" to lowercase "of"" — read as correcting exactly the
standalone (space-separated) word `Of`, leaving every other word in title
case. -/
def specPostLabel (office_name : String) : String :=
  pyJoin " "
    ((pySplit ' ' (pyTitle office_name)).map (fun w => if w = "Of" then "of" else w))

/-- **C9 counterexample** — the claim says the stored label equals the
title-cased office label with exactly the standalone word "Of" lowered.
At the parseable input `"OFFICE"` the code stores `"office"` (the
`replace('Of', 'of')` hits the title-cased word `Office`), while the
claimed label is `"Office"`. -/
theorem c9_counterexample :
    get_or_create_post [] divCA [] "OFFICE"
      = .ok (⟨"office", divCA.did, executive_branch, "office"⟩, true,
          [⟨"office", divCA.did, executive_branch, "office"⟩])
    ∧ specPostLabel "OFFICE" = "Office"
    ∧ ("office" : String) ≠ "Office" :=
  ⟨rfl, rfl, by decide⟩

/-- **C9 (amended)** — for every parseable office label, the stored label
equals the title-cased label with every occurrence of the substring `Of`
replaced by `of`: this lowers the standalone word "Of" but also rewrites
any title-cased word beginning with `Of`. -/
theorem c9_label_replace_all (divisions : List DivisionRec) (sd : DivisionRec)
    (posts posts1 : List PostRec) (office_name : String) (p : PostRec) (c : Bool)
    (h : get_or_create_post divisions sd posts office_name = .ok (p, c, posts1)) :
    p.label = pyReplaceOf (pyTitle office_name) := by
  unfold get_or_create_post at h
  cases hb : build_raw_post divisions sd office_name with
  | error e =>
    rw [hb] at h
    exact Except.noConfusion h
  | ok raw =>
    rw [hb] at h
    rw [postGetOrCreate_ok_val h]
    exact build_raw_post_label hb

/-- Witness for C9 (amended) at `"SECRETARY OF STATE"`, where the stored
label is `"Secretary of State"`. -/
theorem c9_witness :
    (⟨"Secretary of State", divCA.did, sos, "Secretary of State"⟩ : PostRec).label
        = pyReplaceOf (pyTitle "SECRETARY OF STATE")
    ∧ pyReplaceOf (pyTitle "SECRETARY OF STATE") = "Secretary of State" :=
  ⟨c9_label_replace_all [] divCA []
      [⟨"Secretary of State", divCA.did, sos, "Secretary of State"⟩]
      "SECRETARY OF STATE"
      ⟨"Secretary of State", divCA.did, sos, "Secretary of State"⟩ true rfl,
    rfl⟩

/-! ## Helper lemmas on the person store -/

/-- Updating rows whose key does not occur leaves the store unchanged. -/
theorem map_upd_eq_self (xs : List PersonRec) (pid : Nat) (s i : String)
    (h : ∀ a ∈ xs, a.pid ≠ pid) :
    xs.map (fun p => if p.pid = pid
        then { p with identifiers := p.identifiers ++ [(s, i)] } else p) = xs := by
  induction xs with
  | nil => rfl
  | cons a as iha =>
    rw [List.map_cons, if_neg (h a (List.mem_cons_self a as)),
      iha (fun b hb => h b (List.mem_cons_of_mem a hb))]

/-- Appending the identifier `(s, i)` to the row with key `r.pid` in a
store with distinct keys and no row carrying `(s, i)` leaves exactly one
row carrying `(s, i)`: the updated `r`. -/
theorem filter_ident_after_add :
    ∀ (rows : List PersonRec) (r : PersonRec) (s i : String),
      (rows.map PersonRec.pid).Nodup → r ∈ rows →
      rows.filter (fun p => (s, i) ∈ p.identifiers) = [] →
      (rows.map (fun p => if p.pid = r.pid
          then { p with identifiers := p.identifiers ++ [(s, i)] } else p)).filter
          (fun p => (s, i) ∈ p.identifiers)
        = [{ r with identifiers := r.identifiers ++ [(s, i)] }] := by
  intro rows
  induction rows with
  | nil =>
    intro r s i _ hmem _
    cases hmem
  | cons x xs ih =>
    intro r s i hnodup hmem hnone
    rw [List.map_cons, List.nodup_cons] at hnodup
    obtain ⟨hx_notin, hnodup_xs⟩ := hnodup
    rw [List.filter_cons] at hnone
    have hpx : (decide ((s, i) ∈ x.identifiers)) = false := by
      cases hd : (decide ((s, i) ∈ x.identifiers)) with
      | false => rfl
      | true =>
        rw [hd, if_pos rfl] at hnone
        cases hnone
    rw [hpx, if_neg Bool.false_ne_true] at hnone
    cases List.mem_cons.mp hmem with
    | inl hrx =>
      subst hrx
      rw [List.map_cons, if_pos rfl, List.filter_cons]
      have hin : (decide ((s, i) ∈
          ({ r with identifiers := r.identifiers ++ [(s, i)] } : PersonRec).identifiers))
            = true :=
        decide_eq_true (List.mem_append_right _ (List.mem_singleton_self _))
      rw [hin, if_pos rfl]
      have hxs_ne : ∀ a ∈ xs, a.pid ≠ r.pid := by
        intro a ha heq
        exact hx_notin (List.mem_map.mpr ⟨a, ha, heq⟩)
      rw [map_upd_eq_self xs r.pid s i hxs_ne, hnone]
    | inr hrxs =>
      have hx_ne : x.pid ≠ r.pid := by
        intro heq
        exact hx_notin (heq ▸ List.mem_map.mpr ⟨r, hrxs, rfl⟩)
      rw [List.map_cons, if_neg hx_ne, List.filter_cons, hpx, if_neg Bool.false_ne_true]
      exact ih r s i hnodup_xs hrxs hnone

/-- Store-level version: after `identifiers.create` on a member of a
well-keyed store with no prior carrier of the pair, the lookup by the pair
finds exactly the updated row. -/
theorem pwi_after_add (db : PersonDB) (r : PersonRec) (s i : String)
    (hnodup : (db.rows.map PersonRec.pid).Nodup) (hmem : r ∈ db.rows)
    (hnone : personsWithIdentifier db s i = []) :
    personsWithIdentifier (addIdentifier db r.pid s i) s i
      = [{ r with identifiers := r.identifiers ++ [(s, i)] }] := by
  unfold personsWithIdentifier addIdentifier at *
  exact filter_ident_after_add db.rows r s i hnodup hmem hnone

/-- The person created by resolving `"SMITH, JOHN A."` with filer id
`"1234"` against an empty store. -/
def p5 : PersonRec :=
  ⟨0, "SMITH, JOHN A.", "JOHN A. SMITH", [("calaccess_filer_id", "1234")]⟩

/-- The store after that first resolution. -/
def db5 : PersonDB := ⟨1, [p5]⟩

/-- **C5** — once a person is linked to
`(calaccess_filer_id, filerIdentifier)`, every later resolution supplying
that filer id returns that person with `created = false`, whatever the raw
name; in particular resolving the same `(rawName, filerIdentifier)` twice
returns the same person both times.  The store invariants (distinct
primary keys below the fresh-key counter) are those the database
maintains. -/
theorem c5_person_identity_stability :
    (∀ (db : PersonDB) (fid name : String) (p : PersonRec),
      personsWithIdentifier db "calaccess_filer_id" fid = [p] →
      get_or_create_person db name (some fid) = .ok (p, false, db))
    ∧ (∀ (db : PersonDB) (name fid : String) (p : PersonRec) (c : Bool) (db1 : PersonDB),
      (db.rows.map PersonRec.pid).Nodup →
      (∀ r ∈ db.rows, r.pid < db.nextId) →
      personsWithIdentifier db "calaccess_filer_id" fid = [] →
      get_or_create_person db name (some fid) = .ok (p, c, db1) →
      get_or_create_person db1 name (some fid) = .ok (p, false, db1)) := by
  constructor
  · intro db fid name p hone
    simp only [get_or_create_person, hone]
  · intro db name fid p c db1 hnodup hfresh hnone h
    simp only [get_or_create_person, hnone] at h
    cases hpg : personGetOrCreate db name
        (pyStripWs (pyJoin " " ((pySplit ',' name).reverse))) with
    | error e =>
      rw [hpg] at h
      exact Except.noConfusion h
    | ok trip =>
      obtain ⟨p0, b0, db2⟩ := trip
      rw [hpg] at h
      simp only [Except.ok.injEq, Prod.mk.injEq] at h
      obtain ⟨hp, hc, hdb1⟩ := h
      subst hp
      subst hdb1
      simp only [personGetOrCreate] at hpg
      cases hf : db.rows.filter
          (fun q => q.sort_name = name
            ∧ q.name = pyStripWs (pyJoin " " ((pySplit ',' name).reverse))) with
      | nil =>
        rw [hf] at hpg
        simp only [Except.ok.injEq, Prod.mk.injEq] at hpg
        obtain ⟨hp0, hb0, hdb2⟩ := hpg
        have hnodup2 : (db2.rows.map PersonRec.pid).Nodup := by
          rw [← hdb2]
          show (List.map PersonRec.pid (db.rows ++
            [⟨db.nextId, name, pyStripWs (pyJoin " " ((pySplit ',' name).reverse)),
              []⟩])).Nodup
          rw [List.map_append]
          refine List.Nodup.append hnodup (List.nodup_singleton _) ?_
          intro a ha hb
          rw [List.map_cons, List.map_nil, List.mem_singleton] at hb
          subst hb
          obtain ⟨r, hr, hrpid⟩ := List.mem_map.mp ha
          exact absurd hrpid (Nat.ne_of_lt (hfresh r hr))
        have hmem2 : p0 ∈ db2.rows := by
          rw [← hdb2]
          refine List.mem_append_right _ ?_
          rw [← hp0]
          exact List.mem_singleton_self _
        have hnone2 : personsWithIdentifier db2 "calaccess_filer_id" fid = [] := by
          rw [← hdb2]
          show List.filter (fun p => ("calaccess_filer_id", fid) ∈ p.identifiers)
            (db.rows ++
              [⟨db.nextId, name, pyStripWs (pyJoin " " ((pySplit ',' name).reverse)), []⟩])
            = []
          rw [List.filter_append]
          have hnone' : List.filter
              (fun p => ("calaccess_filer_id", fid) ∈ p.identifiers) db.rows = [] := hnone
          rw [hnone']
          rfl
        have hpwi := pwi_after_add db2 p0 "calaccess_filer_id" fid hnodup2 hmem2 hnone2
        simp only [get_or_create_person, hpwi]
      | cons q qs =>
        cases qs with
        | nil =>
          rw [hf] at hpg
          simp only [Except.ok.injEq, Prod.mk.injEq] at hpg
          obtain ⟨hp0, hb0, hdb2⟩ := hpg
          have hqmem : q ∈ db.rows := by
            have : q ∈ db.rows.filter
                (fun q => q.sort_name = name
                  ∧ q.name = pyStripWs (pyJoin " " ((pySplit ',' name).reverse))) := by
              rw [hf]
              exact List.mem_singleton_self q
            exact (List.mem_filter.mp this).1
          have hmem2 : p0 ∈ db2.rows := by
            rw [← hdb2, ← hp0]
            exact hqmem
          have hnodup2 : (db2.rows.map PersonRec.pid).Nodup := by
            rw [← hdb2]
            exact hnodup
          have hnone2 : personsWithIdentifier db2 "calaccess_filer_id" fid = [] := by
            rw [← hdb2]
            exact hnone
          have hpwi := pwi_after_add db2 p0 "calaccess_filer_id" fid hnodup2 hmem2 hnone2
          simp only [get_or_create_person, hpwi]
        | cons q' qs' =>
          rw [hf] at hpg
          exact Except.noConfusion hpg

/-- Witness for C5: resolving `"SMITH, JOHN A."` with filer id `"1234"`
twice returns the same person, and a later call with a different raw name
still returns it. -/
theorem c5_witness :
    get_or_create_person db5 "SMITH, JOHN A." (some "1234") = .ok (p5, false, db5)
    ∧ get_or_create_person db5 "JONES, JANE" (some "1234") = .ok (p5, false, db5) :=
  ⟨c5_person_identity_stability.2 ⟨0, []⟩ "SMITH, JOHN A." "1234" p5 true db5
      (by simp) (by simp) rfl rfl,
    c5_person_identity_stability.1 db5 "1234" "JONES, JANE" p5 rfl⟩
